import Mathlib

/-!
Verification of the task-scoring core of `backend/tasks/scoring.py` (class
`TaskScorer`) and the count-validation of `backend/tasks/views.py`
(`suggest_tasks`).

Modelling conventions:
* Python numbers (ints and floats) are modelled as `ℚ`; the one genuinely
  real-valued operation, `math.log2`, is modelled as `Real.logb 2`, so
  effort scores and totals live in `ℝ`.
* A task is a dict; the fields read by the scorer are modelled with small
  sum types recording the distinctions the code branches on:
  - `due_date` is either absent/falsy, a string `datetime` fails to parse
    (both give the default), or a string parsing to a calendar date;
  - `importance`, `estimated_hours` and `effort` are absent, a (truthy)
    non-numeric value, or a number.
* `datetime.fromisoformat`/`strptime` belong to the standard library; their
  outcome on the due-date string is modelled by the `DueField` constructors,
  and `(due.date() - current_date.date()).days` by proleptic-Gregorian
  ordinals (the scorer is modelled with `consider_holidays = False`, the
  calendar-day branch of the code).
* Raising an exception is modelled with `Except PyError`; `round(x, 2)` by
  `round (x * 100) / 100`.
* In-place mutation of the caller's list by `analyze_tasks` (id assignment)
  is modelled by returning the post-call task list alongside the results.
-/

namespace Scoring

/-- A calendar date as carried by a parsed `datetime` (time of day is
discarded by `.date()` before the subtraction in the code). -/
structure Date where
  year : ℕ
  month : ℕ
  day : ℕ
deriving DecidableEq, Repr

/-- Number of leap years in `1..n` (proleptic Gregorian). -/
def leapsBefore (n : ℕ) : ℕ := n / 4 - n / 100 + n / 400

/-- Gregorian leap-year test. -/
def isLeapYear (y : ℕ) : Bool := (y % 4 == 0 && y % 100 != 0) || y % 400 == 0

/-- Days in the year strictly before month `m`. -/
def daysBeforeMonth (m : ℕ) (leap : Bool) : ℕ :=
  let base :=
    match m with
    | 1 => 0 | 2 => 31 | 3 => 59 | 4 => 90 | 5 => 120 | 6 => 151
    | 7 => 181 | 8 => 212 | 9 => 243 | 10 => 273 | 11 => 304 | _ => 334
  if 3 ≤ m ∧ leap then base + 1 else base

/-- Proleptic-Gregorian ordinal of a date (day 1 = 0001-01-01), the model of
`datetime.date.toordinal`. -/
def Date.toOrdinal (d : Date) : ℕ :=
  365 * (d.year - 1) + leapsBefore (d.year - 1) +
    daysBeforeMonth d.month (isLeapYear d.year) + d.day

/-- Model of `(due.date() - current_date.date()).days`. -/
def dateDiff (due current : Date) : ℤ :=
  (due.toOrdinal : ℤ) - (current.toOrdinal : ℤ)

/-- The `due_date` value of a task: absent (or falsy), a string no date can
be parsed from, or a string parsing to a calendar date. -/
inductive DueField where
  | missing
  | unparsable
  | parsed (d : Date)
deriving DecidableEq, Repr

/-- A possibly-missing, possibly non-numeric task field (`importance`,
`estimated_hours`, `effort`).  `nonNumeric` stands for a truthy value that
is neither `int` nor `float` (e.g. a non-empty string). -/
inductive NumField where
  | missing
  | nonNumeric
  | num (q : ℚ)
deriving DecidableEq, Repr

/-- The slice of a task dict read by the scorer. -/
structure Task where
  id : Option String := none
  title : String := ""
  due_date : DueField := .missing
  importance : NumField := .missing
  estimated_hours : NumField := .missing
  effort : NumField := .missing
  dependencies : List String := []
deriving DecidableEq, Repr

/-- A Python exception escaping the scorer. -/
inductive PyError where
  | typeError
deriving DecidableEq, Repr

/-- Strategy weight record (`_get_strategy_weights`). -/
structure Weights where
  urgency : ℚ
  importance : ℚ
  effort : ℚ
  dependency : ℚ
deriving DecidableEq, Repr

/-- Model of `_get_strategy_weights`: the four named strategies, any other name
falling back to `smart_balance`. -/
def strategyWeights (strategy : String) : Weights :=
  if strategy = "smart_balance" then ⟨1, 1, 1, 1⟩
  else if strategy = "fastest_wins" then ⟨1/2, 7/10, 2, 4/5⟩
  else if strategy = "high_impact" then ⟨3/5, 5/2, 3/10, 4/5⟩
  else if strategy = "deadline_driven" then ⟨5/2, 7/10, 1/2, 1⟩
  else ⟨1, 1, 1, 1⟩

/-- The branch cascade of `calculate_urgency_score` on `days_until_due`
(scoring.py lines 151-174). -/
def urgency_from_days (days_until_due : ℤ) : ℚ :=
  if days_until_due < 0 then
    min 40 (40 + (|days_until_due| : ℚ) * (1/2))
  else if days_until_due = 0 then 38
  else if days_until_due = 1 then 35
  else if days_until_due = 2 then 33
  else if days_until_due ≤ 5 then 30 - ((days_until_due : ℚ) - 2) * 2
  else if days_until_due ≤ 10 then 20 - ((days_until_due : ℚ) - 5)
  else if days_until_due ≤ 15 then 15 - ((days_until_due : ℚ) - 10) * (4/5)
  else max 0 (5 - ((days_until_due : ℚ) - 15) * (3/10))

/-- Model of `calculate_urgency_score` with holiday-awareness disabled: a missing or
unparsable due date yields the default 10, otherwise the cascade is applied
to the calendar-day difference. -/
def calculate_urgency_score (due_date : DueField) (current_date : Date) : ℚ :=
  match due_date with
  | .missing => 10
  | .unparsable => 10
  | .parsed due => urgency_from_days (dateDiff due current_date)

/-- Model of `calculate_importance_score`: non-numbers (incl. `None`) give 15,
numbers are clamped to `[1, 10]` and tripled. -/
def calculate_importance_score (importance : NumField) : ℚ :=
  match importance with
  | .missing => 15
  | .nonNumeric => 15
  | .num q => max 1 (min 10 q) * 3

/-- Model of `calculate_effort_score`.  `None` and non-positive numbers give 7.5; a
non-numeric value reaches `estimated_hours <= 0` and raises `TypeError`;
above 8 hours the code computes `max(3, 15 - math.log2(hours) * 2)`. -/
noncomputable def calculate_effort_score (estimated_hours : NumField) :
    Except PyError ℝ :=
  match estimated_hours with
  | .missing => .ok (15/2)
  | .nonNumeric => .error .typeError
  | .num q =>
    if q ≤ 0 then .ok (15/2)
    else if q ≤ 1 then .ok 15
    else if q ≤ 2 then .ok 12
    else if q ≤ 4 then .ok 9
    else if q ≤ 8 then .ok 6
    else .ok (max 3 (15 - Real.logb 2 (q : ℝ) * 2))

/-- Key of the task at position `i` in the list: `str(task.get('id', str(i)))`. -/
def task_key (i : ℕ) (t : Task) : String :=
  match t.id with
  | some s => s
  | none => toString i

/-- The keys of all tasks, in list order (with repetitions). -/
def task_ids (tasks : List Task) : List String :=
  tasks.enum.map fun p => task_key p.1 p.2

/-- The list `task_ids` as a set (the `task_ids` set in `build_dependency_map`, and
the key set of `task_map`). -/
def task_ids_set (tasks : List Task) : Finset String :=
  (task_ids tasks).toFinset

/-- Lookup in the reverse dependency map built by `build_dependency_map`:
`dependency_map.get(dep, set())` is the set of keys of tasks listing `dep`,
provided `dep` is itself a task key (edges to unknown ids are dropped), and
the empty set otherwise. -/
def build_dependency_map (tasks : List Task) (dep : String) : Finset String :=
  if dep ∈ task_ids_set tasks then
    ((tasks.enum.filter fun p => dep ∈ p.2.dependencies).map
      fun p => task_key p.1 p.2).toFinset
  else ∅

/-- Model of `calculate_dependency_score` (the `all_tasks` argument is unused, as in
the code). -/
def calculate_dependency_score (task_id : String) (all_tasks : List Task)
    (dependency_map : String → Finset String) : ℚ :=
  let dependent_count := (dependency_map task_id).card
  if dependent_count = 0 then 5
  else if dependent_count = 1 then 8
  else if dependent_count = 2 then 11
  else min 15 (11 + ((dependent_count : ℚ) - 2) * (3/2))

/-- First-occurrence-ordered key list of the `task_map` dict built by
`detect_circular_dependencies` (insertion order; a later duplicate key
overwrites the value but keeps the position). -/
def task_map_keys (tasks : List Task) : List String :=
  (task_ids tasks).foldl (fun acc k => if k ∈ acc then acc else acc ++ [k]) []

/-- Lookup `task_map[k]`: the last task whose key is `k`, if any. -/
def task_map_get (tasks : List Task) (k : String) : Option Task :=
  ((tasks.enum.filter fun p => task_key p.1 p.2 = k).getLast?).map Prod.snd

/-- The mutable state threaded through the depth-first search of
`detect_circular_dependencies`: the `visited` set, the recursion stack and
the accumulated cycles. -/
structure DfsState where
  visited : Finset String
  recStack : Finset String
  cycles : List (List String)
deriving DecidableEq

/-- Cycle emission: `path.index(task_id)` plus the slice; a `ValueError`
(id not on the path) is swallowed by the `except`, recording nothing. -/
def record_cycle (path : List String) (task_id : String) (st : DfsState) :
    DfsState :=
  if task_id ∈ path then
    { st with cycles :=
        st.cycles ++ [path.drop (path.indexOf task_id) ++ [task_id]] }
  else st

/-- The inner `dfs` of `detect_circular_dependencies`, with explicit fuel in
place of Python's unbounded recursion (the fuel-independence theorem below
shows `card + 1` fuel always suffices, i.e. the search terminates). -/
def dfs : ℕ → List Task → String → List String → DfsState → DfsState
  | 0, _, _, _, st => st
  | fuel + 1, tasks, task_id, path, st =>
    if task_id ∈ st.recStack then record_cycle path task_id st
    else if task_id ∈ st.visited then st
    else
      let st1 : DfsState :=
        { st with visited := insert task_id st.visited,
                  recStack := insert task_id st.recStack }
      let st2 :=
        match task_map_get tasks task_id with
        | none => st1
        | some task =>
          task.dependencies.foldl
            (fun s dep =>
              if dep ∈ task_ids_set tasks then
                dfs fuel tasks dep (path ++ [task_id]) s
              else s)
            st1
      { st2 with recStack := st2.recStack.erase task_id }

/-- The top-level loop of `detect_circular_dependencies`, at a given fuel. -/
def detect_fuel (fuel : ℕ) (tasks : List Task) : List (List String) :=
  ((task_map_keys tasks).foldl
    (fun st task_id =>
      if task_id ∈ st.visited then st else dfs fuel tasks task_id [] st)
    ⟨∅, ∅, []⟩).cycles

/-- Model of `detect_circular_dependencies`, run with sufficient fuel. -/
def detect_circular_dependencies (tasks : List Task) : List (List String) :=
  detect_fuel ((task_ids_set tasks).card + 1) tasks

/-- The reason tags of `_generate_explanation` (stand-ins for its display
strings). -/
inductive Reason where
  | dueVerySoonOrOverdue
  | approachingDeadline
  | highImportanceRating
  | quickWin
  | blocksOtherTasks
  | balancedPriority
deriving DecidableEq, Repr

/-- The four raw or weighted sub-scores of a result dict. -/
structure SubScores where
  urgency : ℝ
  importance : ℝ
  effort : ℝ
  dependency : ℝ

/-- A scored result as returned by `score_task` (`explanation` is added
later, by `suggest_top_tasks`, hence optional). -/
structure ScoredTask where
  task : Task
  score : ℝ
  breakdown : SubScores
  raw_scores : SubScores
  explanation : Option (List Reason)

/-- Model of `round(x, 2)`. -/
noncomputable def round2 (x : ℝ) : ℝ := (round (x * 100) : ℤ) / 100

/-- The expression `task.get('estimated_hours') or task.get('effort')`: `None` and `0` are
falsy and fall through to `effort`; modelled non-numeric values are truthy. -/
def effort_input (t : Task) : NumField :=
  match t.estimated_hours with
  | .missing => t.effort
  | .num q => if q = 0 then t.effort else .num q
  | .nonNumeric => .nonNumeric

/-- The key `str(task.get('id', str(all_tasks.index(task))))` in `score_task` (the
fallback differs from the positional key used elsewhere; `all_tasks.index`
finds the first equal task). -/
def score_task_id (task : Task) (all_tasks : List Task) : String :=
  match task.id with
  | some s => s
  | none => toString (all_tasks.indexOf task)

/-- Model of `score_task` on a pre-built dependency map, at reference time `now`
(the code calls `calculate_urgency_score` without a date, i.e. at
`datetime.now()`). -/
noncomputable def score_task (strategy : String) (now : Date) (task : Task)
    (all_tasks : List Task) (dependency_map : String → Finset String) :
    Except PyError ScoredTask :=
  let w := strategyWeights strategy
  let task_id := score_task_id task all_tasks
  let urgency := calculate_urgency_score task.due_date now
  let importance := calculate_importance_score task.importance
  match calculate_effort_score (effort_input task) with
  | .error e => .error e
  | .ok effort =>
    let dependency := calculate_dependency_score task_id all_tasks dependency_map
    let weighted_urgency : ℝ := (urgency : ℝ) * (w.urgency : ℝ)
    let weighted_importance : ℝ := (importance : ℝ) * (w.importance : ℝ)
    let weighted_effort : ℝ := effort * (w.effort : ℝ)
    let weighted_dependency : ℝ := (dependency : ℝ) * (w.dependency : ℝ)
    let total_score := weighted_urgency + weighted_importance +
      weighted_effort + weighted_dependency
    .ok
      { task := task
        score := round2 total_score
        breakdown := ⟨round2 weighted_urgency, round2 weighted_importance,
          round2 weighted_effort, round2 weighted_dependency⟩
        raw_scores := ⟨round2 (urgency : ℝ), round2 (importance : ℝ),
          round2 effort, round2 (dependency : ℝ)⟩
        explanation := none }

/-- The id assignment of `analyze_tasks` for the task at position `i`:
`task['id'] = f"task_{i}"` when the dict has no `id` key. -/
def fill_one (i : ℕ) (t : Task) : Task :=
  match t.id with
  | some _ => t
  | none => { t with id := some ("task_" ++ toString i) }

/-- The id-assignment loop of `analyze_tasks` from position `i` on. -/
def fill_from (i : ℕ) : List Task → List Task
  | [] => []
  | t :: ts => fill_one i t :: fill_from (i + 1) ts

/-- All ids present after `analyze_tasks`'s first loop. -/
def fill_missing_ids (tasks : List Task) : List Task := fill_from 0 tasks

/-- The list comprehension `[score_task(task, tasks, dependency_map) for
task in tasks]`: the first raised exception aborts the whole analysis. -/
noncomputable def score_all (strategy : String) (now : Date)
    (all_tasks : List Task) (dependency_map : String → Finset String) :
    List Task → Except PyError (List ScoredTask)
  | [] => .ok []
  | t :: ts =>
    match score_task strategy now t all_tasks dependency_map with
    | .error e => .error e
    | .ok r =>
      match score_all strategy now all_tasks dependency_map ts with
      | .error e => .error e
      | .ok rs => .ok (r :: rs)

/-- One step of the stable descending insertion modelling
`scored_tasks.sort(key=lambda x: x['score'], reverse=True)` (CPython's sort
is stable, so its output is the unique score-descending reordering in which
equal-score entries keep their original relative order; a stable insertion
sort computes exactly that list). -/
noncomputable def insertDesc (x : ScoredTask) :
    List ScoredTask → List ScoredTask
  | [] => [x]
  | y :: ys => if y.score ≤ x.score then x :: y :: ys else y :: insertDesc x ys

/-- Stable sort by descending `score`. -/
noncomputable def sortDesc : List ScoredTask → List ScoredTask
  | [] => []
  | x :: xs => insertDesc x (sortDesc xs)

/-- Model of `analyze_tasks`.  The first component is the caller's task list after
the call (the id-assignment loop mutates it in place); the second is the
returned value, or the exception that escaped. -/
noncomputable def analyze_tasks (strategy : String) (now : Date)
    (tasks : List Task) : List Task × Except PyError (List ScoredTask) :=
  if tasks.isEmpty then (tasks, .ok [])
  else
    let tasks' := fill_missing_ids tasks
    let dependency_map := build_dependency_map tasks'
    match score_all strategy now tasks' dependency_map tasks' with
    | .error e => (tasks', .error e)
    | .ok scored => (tasks', .ok (sortDesc scored))

/-- Model of `_generate_explanation`, on the (rounded) raw scores of a result. -/
noncomputable def generate_explanation (scored : ScoredTask) : List Reason :=
  let raw := scored.raw_scores
  let reasons :=
    (if 35 ≤ raw.urgency then [Reason.dueVerySoonOrOverdue]
     else if 25 ≤ raw.urgency then [Reason.approachingDeadline] else []) ++
    (if 24 ≤ raw.importance then [Reason.highImportanceRating] else []) ++
    (if 12 ≤ raw.effort then [Reason.quickWin] else []) ++
    (if 11 ≤ raw.dependency then [Reason.blocksOtherTasks] else [])
  if reasons.isEmpty then [Reason.balancedPriority] else reasons

/-- Python list slicing `lst[:count]` for a possibly negative `count`. -/
def pySliceTo (count : ℤ) (l : List ScoredTask) : List ScoredTask :=
  if 0 ≤ count then l.take count.toNat
  else l.take (l.length - (-count).toNat)

/-- Model of `suggest_top_tasks`: analyze, slice the top `count`, attach
explanations.  The task-list mutation of `analyze_tasks` is carried through
in the first component. -/
noncomputable def suggest_top_tasks (strategy : String) (now : Date)
    (tasks : List Task) (count : ℤ) :
    List Task × Except PyError (List ScoredTask) :=
  let p := analyze_tasks strategy now tasks
  (p.1, p.2.map fun scored =>
    (pySliceTo count scored).map fun s =>
      { s with explanation := some (generate_explanation s) })

/-- The responses of the `suggest_tasks` view that matter here: a 200 with
suggestions, the 400 for `count < 1`, and the 500 produced when the scorer
raises. -/
inductive ViewResponse where
  | ok (suggestions : List ScoredTask)
  | badRequest
  | serverError

/-- The `suggest_tasks` view of views.py (`GET /api/tasks/suggest/`) on an
already-parsed integer `count` and the incomplete tasks fetched from
storage: rejects a non-positive count with a 400 before any scoring, returns
an empty suggestion list when there are no tasks, and otherwise serves
`suggest_top_tasks`, turning an escaped exception into a 500. -/
noncomputable def suggest_tasks_view (strategy : String) (now : Date)
    (tasks : List Task) (count : ℤ) : ViewResponse :=
  if count < 1 then .badRequest
  else if tasks.isEmpty then .ok []
  else
    match (suggest_top_tasks strategy now tasks count).2 with
    | .ok suggestions => .ok suggestions
    | .error _ => .serverError

/-- The urgency piecewise function exactly as claim C1 states it (spec
section 4.2), as a function of the calendar-day difference `d`; for a
comparison with the function implemented by the code. -/
def claimed_urgency_piecewise (d : ℤ) : ℚ :=
  if d < 0 then min 40 (40 + (1/2) * (|d| : ℚ))
  else if d = 0 then 38
  else if 1 ≤ d ∧ d ≤ 3 then 35 - 2 * (d : ℚ)
  else if 4 ≤ d ∧ d ≤ 7 then 25 - (3/2) * ((d : ℚ) - 3)
  else if 8 ≤ d ∧ d ≤ 14 then 15 - ((d : ℚ) - 7)
  else max 0 (5 - (1/2) * ((d : ℚ) - 14))

/-- The urgency piecewise function the code actually implements, written in
the interval style of the spec (the amended form of claim C1). -/
def code_urgency_piecewise (d : ℤ) : ℚ :=
  if d < 0 then 40
  else if d = 0 then 38
  else if d = 1 then 35
  else if d = 2 then 33
  else if 3 ≤ d ∧ d ≤ 5 then 30 - 2 * ((d : ℚ) - 2)
  else if 6 ≤ d ∧ d ≤ 10 then 20 - ((d : ℚ) - 5)
  else if 11 ≤ d ∧ d ≤ 15 then 15 - (4/5) * ((d : ℚ) - 10)
  else max 0 (5 - (3/10) * ((d : ℚ) - 15))

/-- Number of task keys not yet visited: the quantity the depth-first
search strictly decreases, bounding its recursion depth. -/
def unvisited_count (tasks : List Task) (st : DfsState) : ℕ :=
  (task_ids_set tasks \ st.visited).card

/-- The else-branch of one `dfs` step (node neither on the stack nor
visited): mark the node, fold over its valid dependencies with one unit of
fuel less, then pop the node from the recursion stack. -/
def dfs_body (tasks : List Task) (fuel : ℕ) (id : String) (path : List String)
    (st : DfsState) : DfsState :=
  let st1 : DfsState :=
    { st with visited := insert id st.visited,
              recStack := insert id st.recStack }
  let st2 :=
    match task_map_get tasks id with
    | none => st1
    | some task =>
      task.dependencies.foldl
        (fun s dep =>
          if dep ∈ task_ids_set tasks then
            dfs fuel tasks dep (path ++ [id]) s
          else s)
        st1
  { st2 with recStack := st2.recStack.erase id }

/-- What `analyze_tasks` is claimed to return on a task list: the tasks are
scored in list order, every input task yields exactly one result, and the
returned sequence is the score-descending, tie-stable reordering of the
scored list (equal-score results keep their pre-sort relative order, which
is the task order). -/
def AnalyzeOutputSpec (strategy : String) (now : Date) (ts : List Task) : Prop :=
  ∃ scored,
    score_all strategy now (fill_missing_ids ts)
        (build_dependency_map (fill_missing_ids ts)) (fill_missing_ids ts) =
      .ok scored ∧
    (analyze_tasks strategy now ts).2 = .ok (sortDesc scored) ∧
    scored.length = ts.length ∧
    (sortDesc scored).length = ts.length ∧
    List.Perm (sortDesc scored) scored ∧
    (sortDesc scored).Pairwise (fun a b => b.score ≤ a.score) ∧
    ∀ c : ℝ, (sortDesc scored).filter (fun r => decide (r.score = c)) =
      scored.filter (fun r => decide (r.score = c))

theorem urgency_from_days_eq_piecewise (d : ℤ) :
    urgency_from_days d = code_urgency_piecewise d := by
  unfold urgency_from_days code_urgency_piecewise
  split_ifs <;>
    first
      | rfl
      | omega
      | (rw [min_eq_left (le_add_of_nonneg_right (by positivity))])
      | ring

/-- C1 (amended): with holiday-awareness disabled, the urgency sub-score of
a parseable due date is the piecewise function of the calendar-day
difference `d` actually implemented by the code — overdue → 40; `d = 0` →
38; `d = 1` → 35; `d = 2` → 33; `3 ≤ d ≤ 5` → `30 - 2*(d-2)`; `6 ≤ d ≤ 10`
→ `20 - (d-5)`; `11 ≤ d ≤ 15` → `15 - 0.8*(d-10)`; `d > 15` →
`max(0, 5 - 0.3*(d-15))` — and a missing or unparsable due date scores 10. -/
theorem urgency_score_matches_code_piecewise :
    (∀ due current : Date,
      calculate_urgency_score (.parsed due) current =
        code_urgency_piecewise (dateDiff due current)) ∧
    ∀ current : Date,
      calculate_urgency_score .missing current = 10 ∧
        calculate_urgency_score .unparsable current = 10 :=
  ⟨fun due current => urgency_from_days_eq_piecewise (dateDiff due current),
   fun _ => ⟨rfl, rfl⟩⟩

/-- C1 (counterexample): at calendar-day differences 1, 4, 8 and 15 the
urgency sub-score computed by the code (35, 26, 17, 11) differs from the
piecewise function stated in the claim (33, 23.5, 14, 4.5). -/
theorem urgency_claimed_piecewise_counterexample :
    dateDiff ⟨2025, 11, 30⟩ ⟨2025, 11, 29⟩ = 1 ∧
    calculate_urgency_score (.parsed ⟨2025, 11, 30⟩) ⟨2025, 11, 29⟩ = 35 ∧
    claimed_urgency_piecewise 1 = 33 ∧
    calculate_urgency_score (.parsed ⟨2025, 11, 30⟩) ⟨2025, 11, 29⟩ ≠
      claimed_urgency_piecewise (dateDiff ⟨2025, 11, 30⟩ ⟨2025, 11, 29⟩) ∧
    dateDiff ⟨2025, 12, 3⟩ ⟨2025, 11, 29⟩ = 4 ∧
    calculate_urgency_score (.parsed ⟨2025, 12, 3⟩) ⟨2025, 11, 29⟩ = 26 ∧
    claimed_urgency_piecewise 4 = 47/2 ∧
    dateDiff ⟨2025, 12, 7⟩ ⟨2025, 11, 29⟩ = 8 ∧
    calculate_urgency_score (.parsed ⟨2025, 12, 7⟩) ⟨2025, 11, 29⟩ = 17 ∧
    claimed_urgency_piecewise 8 = 14 ∧
    dateDiff ⟨2025, 12, 14⟩ ⟨2025, 11, 29⟩ = 15 ∧
    calculate_urgency_score (.parsed ⟨2025, 12, 14⟩) ⟨2025, 11, 29⟩ = 11 ∧
    claimed_urgency_piecewise 15 = 9/2 := by
  have d1 : dateDiff ⟨2025, 11, 30⟩ ⟨2025, 11, 29⟩ = 1 := by decide
  have d4 : dateDiff ⟨2025, 12, 3⟩ ⟨2025, 11, 29⟩ = 4 := by decide
  have d8 : dateDiff ⟨2025, 12, 7⟩ ⟨2025, 11, 29⟩ = 8 := by decide
  have d15 : dateDiff ⟨2025, 12, 14⟩ ⟨2025, 11, 29⟩ = 15 := by decide
  have u1 : calculate_urgency_score (.parsed ⟨2025, 11, 30⟩) ⟨2025, 11, 29⟩ = 35 := by
    simp only [calculate_urgency_score, d1]; norm_num [urgency_from_days]
  have u4 : calculate_urgency_score (.parsed ⟨2025, 12, 3⟩) ⟨2025, 11, 29⟩ = 26 := by
    simp only [calculate_urgency_score, d4]; norm_num [urgency_from_days]
  have u8 : calculate_urgency_score (.parsed ⟨2025, 12, 7⟩) ⟨2025, 11, 29⟩ = 17 := by
    simp only [calculate_urgency_score, d8]; norm_num [urgency_from_days]
  have u15 : calculate_urgency_score (.parsed ⟨2025, 12, 14⟩) ⟨2025, 11, 29⟩ = 11 := by
    simp only [calculate_urgency_score, d15]; norm_num [urgency_from_days]
  have c1 : claimed_urgency_piecewise 1 = 33 := by
    norm_num [claimed_urgency_piecewise]
  refine ⟨d1, u1, c1, ?_, d4, u4, ?_, d8, u8, ?_, d15, u15, ?_⟩
  · rw [u1, d1, c1]; norm_num
  · norm_num [claimed_urgency_piecewise]
  · norm_num [claimed_urgency_piecewise]
  · norm_num [claimed_urgency_piecewise]

/-- C5: on the three-task loop `A→B→C→A`, `detect_circular_dependencies`
returns a cycle containing all three ids; on the linear chain `A→B→C` it
returns the empty list. -/
theorem detect_cycles_loop_and_chain :
    (∃ c ∈ detect_circular_dependencies
        [{ id := some "A", dependencies := ["B"] },
         { id := some "B", dependencies := ["C"] },
         { id := some "C", dependencies := ["A"] }],
      "A" ∈ c ∧ "B" ∈ c ∧ "C" ∈ c) ∧
    detect_circular_dependencies
        [{ id := some "A", dependencies := ["B"] },
         { id := some "B", dependencies := ["C"] },
         { id := some "C", dependencies := [] }] = [] := by
  constructor
  · exact ⟨["A", "B", "C", "A"], by decide, by decide, by decide, by decide⟩
  · decide

theorem insertDesc_perm (x : ScoredTask) (l : List ScoredTask) :
    List.Perm (insertDesc x l) (x :: l) := by
  induction l with
  | nil => exact List.Perm.refl _
  | cons y ys ih =>
    by_cases h : y.score ≤ x.score
    · rw [insertDesc, if_pos h]
    · rw [insertDesc, if_neg h]
      exact (ih.cons y).trans (List.Perm.swap x y ys)

theorem sortDesc_perm (l : List ScoredTask) : List.Perm (sortDesc l) l := by
  induction l with
  | nil => exact List.Perm.refl _
  | cons x xs ih => exact (insertDesc_perm x (sortDesc xs)).trans (ih.cons x)

theorem insertDesc_pairwise (x : ScoredTask) (l : List ScoredTask)
    (hl : l.Pairwise fun a b => b.score ≤ a.score) :
    (insertDesc x l).Pairwise fun a b => b.score ≤ a.score := by
  induction l with
  | nil => simp [insertDesc]
  | cons y ys ih =>
    rw [List.pairwise_cons] at hl
    by_cases h : y.score ≤ x.score
    · rw [insertDesc, if_pos h, List.pairwise_cons]
      refine ⟨?_, List.pairwise_cons.mpr hl⟩
      intro z hz
      rcases List.mem_cons.mp hz with hz | hz
      · exact hz ▸ h
      · exact le_trans (hl.1 z hz) h
    · rw [insertDesc, if_neg h, List.pairwise_cons]
      refine ⟨?_, ih hl.2⟩
      intro z hz
      have hz' : z = x ∨ z ∈ ys :=
        List.mem_cons.mp ((insertDesc_perm x ys).mem_iff.mp hz)
      rcases hz' with hz' | hz'
      · exact hz' ▸ le_of_lt (not_le.mp h)
      · exact hl.1 z hz'

theorem sortDesc_pairwise (l : List ScoredTask) :
    (sortDesc l).Pairwise fun a b => b.score ≤ a.score := by
  induction l with
  | nil => simp [sortDesc]
  | cons x xs ih => exact insertDesc_pairwise x (sortDesc xs) ih

theorem filter_insertDesc (c : ℝ) (x : ScoredTask) (l : List ScoredTask) :
    (insertDesc x l).filter (fun r => decide (r.score = c)) =
      if x.score = c then x :: l.filter (fun r => decide (r.score = c))
      else l.filter (fun r => decide (r.score = c)) := by
  induction l with
  | nil =>
    by_cases hx : x.score = c <;> simp [insertDesc, List.filter, hx]
  | cons y ys ih =>
    by_cases h : y.score ≤ x.score
    · rw [insertDesc, if_pos h]
      by_cases hx : x.score = c <;> simp [List.filter_cons, hx]
    · rw [insertDesc, if_neg h]
      by_cases hx : x.score = c
      · have hy : ¬ y.score = c := fun hy => h (le_of_eq (hy.trans hx.symm))
        simp [List.filter_cons, hx, hy, ih]
      · simp only [List.filter_cons, ih, if_neg hx]

theorem filter_sortDesc (c : ℝ) (l : List ScoredTask) :
    (sortDesc l).filter (fun r => decide (r.score = c)) =
      l.filter (fun r => decide (r.score = c)) := by
  induction l with
  | nil => rfl
  | cons x xs ih =>
    rw [sortDesc, filter_insertDesc, ih]
    by_cases hx : x.score = c <;> simp [List.filter_cons, hx]

/-- C7 (code evaluation at the failing input): `effort_score(0.5) = 15` as
the claim states, but for a 10-hour estimate the code returns
`max(3, 15 − 2·log2 10) ≈ 8.36`, which is at least 7 — contradicting the
claim, the docstring bucket "8+ hours: 3 points", the repository test
`test_effort_long_tasks`, and even the documented inverse relationship,
since 8 hours score only 6. -/
theorem effort_score_ten_hours_at_least_seven :
    calculate_effort_score (.num (1/2)) = .ok 15 ∧
    calculate_effort_score (.num 8) = .ok 6 ∧
    ∃ v, calculate_effort_score (.num 10) = .ok v ∧ 7 ≤ v ∧ v ≤ 9 := by
  refine ⟨by norm_num [calculate_effort_score], by norm_num [calculate_effort_score], ?_⟩
  refine ⟨max 3 (15 - Real.logb 2 (((10 : ℚ)) : ℝ) * 2), ?_, ?_, ?_⟩
  · norm_num [calculate_effort_score]
  · have hcast : (((10 : ℚ)) : ℝ) = 10 := by norm_num
    have h4 : Real.logb 2 10 ≤ 4 := by
      rw [Real.logb_le_iff_le_rpow (by norm_num) (by norm_num)]
      rw [show (4 : ℝ) = ((4 : ℕ) : ℝ) by norm_num, Real.rpow_natCast]
      norm_num
    rw [hcast]
    exact le_trans (by linarith) (le_max_right _ _)
  · have hcast : (((10 : ℚ)) : ℝ) = 10 := by norm_num
    have h3 : (3 : ℝ) ≤ Real.logb 2 10 := by
      rw [Real.le_logb_iff_rpow_le (by norm_num) (by norm_num)]
      rw [show (3 : ℝ) = ((3 : ℕ) : ℝ) by norm_num, Real.rpow_natCast]
      norm_num
    rw [hcast]
    exact max_le (by norm_num) (by linarith)

theorem urgency_from_days_bounds (d : ℤ) :
    0 ≤ urgency_from_days d ∧ urgency_from_days d ≤ 40 := by
  unfold urgency_from_days
  split_ifs with h1 h2 h3 h4 h5 h6 h7
  · exact ⟨le_min (by norm_num) (by positivity), min_le_left _ _⟩
  · norm_num
  · norm_num
  · norm_num
  · have hl : (3 : ℚ) ≤ (d : ℚ) := by exact_mod_cast (by omega : (3 : ℤ) ≤ d)
    have hu : (d : ℚ) ≤ 5 := by exact_mod_cast h5
    constructor <;> nlinarith
  · have hl : (6 : ℚ) ≤ (d : ℚ) := by exact_mod_cast (by omega : (6 : ℤ) ≤ d)
    have hu : (d : ℚ) ≤ 10 := by exact_mod_cast h6
    constructor <;> nlinarith
  · have hl : (11 : ℚ) ≤ (d : ℚ) := by exact_mod_cast (by omega : (11 : ℤ) ≤ d)
    have hu : (d : ℚ) ≤ 15 := by exact_mod_cast h7
    constructor <;> nlinarith
  · have hl : (15 : ℚ) ≤ (d : ℚ) := by exact_mod_cast (by omega : (15 : ℤ) ≤ d)
    exact ⟨le_max_left _ _, max_le (by norm_num) (by nlinarith)⟩

theorem calculate_urgency_score_bounds (due : DueField) (current : Date) :
    0 ≤ calculate_urgency_score due current ∧
      calculate_urgency_score due current ≤ 40 := by
  cases due with
  | missing => norm_num [calculate_urgency_score]
  | unparsable => norm_num [calculate_urgency_score]
  | parsed d => exact urgency_from_days_bounds (dateDiff d current)

theorem calculate_importance_score_bounds (imp : NumField) :
    3 ≤ calculate_importance_score imp ∧ calculate_importance_score imp ≤ 30 := by
  cases imp with
  | missing => norm_num [calculate_importance_score]
  | nonNumeric => norm_num [calculate_importance_score]
  | num q =>
    simp only [calculate_importance_score]
    constructor
    · nlinarith [le_max_left (1 : ℚ) (min 10 q)]
    · have h10 : max 1 (min 10 q) ≤ 10 :=
        max_le (by norm_num) (min_le_left _ _)
      nlinarith

theorem calculate_effort_score_bounds (f : NumField) (v : ℝ)
    (h : calculate_effort_score f = .ok v) : 3 ≤ v ∧ v ≤ 15 := by
  cases f with
  | missing =>
    rw [calculate_effort_score] at h
    injection h with h
    rw [← h]; norm_num
  | nonNumeric => exact absurd h (by rw [calculate_effort_score]; exact fun h => by injection h)
  | num q =>
    rw [calculate_effort_score] at h
    split_ifs at h with h0 h1 h2 h4 h8 <;> injection h with h <;> rw [← h]
    · norm_num
    · norm_num
    · norm_num
    · norm_num
    · norm_num
    · have hq1 : (1 : ℝ) ≤ (q : ℝ) := by
        exact_mod_cast (by linarith [not_le.mp h8] : (1 : ℚ) ≤ q)
      have hlogb : 0 ≤ Real.logb 2 (q : ℝ) := Real.logb_nonneg (by norm_num) hq1
      exact ⟨le_max_left _ _, max_le (by norm_num) (by linarith)⟩

theorem calculate_dependency_score_bounds (tid : String) (all : List Task)
    (dmap : String → Finset String) :
    5 ≤ calculate_dependency_score tid all dmap ∧
      calculate_dependency_score tid all dmap ≤ 15 := by
  simp only [calculate_dependency_score]
  split_ifs with h0 h1 h2
  · norm_num
  · norm_num
  · norm_num
  · have h3 : (3 : ℚ) ≤ ((dmap tid).card : ℚ) := by
      exact_mod_cast (by omega : 3 ≤ (dmap tid).card)
    exact ⟨le_min (by norm_num) (by nlinarith), min_le_left _ _⟩

theorem round2_le_of_le (x b : ℝ) (h : x ≤ b) (hb : ∃ n : ℤ, (n : ℝ) = b * 100) :
    round2 x ≤ b := by
  obtain ⟨n, hn⟩ := hb
  have hround : round (x * 100) ≤ n := by
    rw [round_eq]
    have : ⌊x * 100 + 1 / 2⌋ < n + 1 := by
      rw [Int.floor_lt]
      push_cast
      nlinarith
    omega
  rw [round2]
  have : ((round (x * 100) : ℤ) : ℝ) ≤ (n : ℝ) := by exact_mod_cast hround
  rw [hn] at this
  linarith

theorem score_task_smart_balance_le_100 (now : Date) (t : Task)
    (all : List Task) (dmap : String → Finset String) (r : ScoredTask)
    (h : score_task "smart_balance" now t all dmap = .ok r) : r.score ≤ 100 := by
  have hw : strategyWeights "smart_balance" = ⟨1, 1, 1, 1⟩ := rfl
  cases heff : calculate_effort_score (effort_input t) with
  | error e =>
    rw [score_task, hw, heff] at h
    exact absurd h (by simp)
  | ok eff =>
    rw [score_task, hw, heff] at h
    injection h with h
    have hu := (calculate_urgency_score_bounds t.due_date now).2
    have hi := (calculate_importance_score_bounds t.importance).2
    have he := (calculate_effort_score_bounds _ eff heff).2
    have hd := (calculate_dependency_score_bounds (score_task_id t all) all dmap).2
    have hu' : ((calculate_urgency_score t.due_date now : ℚ) : ℝ) ≤ 40 := by
      exact_mod_cast hu
    have hi' : ((calculate_importance_score t.importance : ℚ) : ℝ) ≤ 30 := by
      exact_mod_cast hi
    have hd' : ((calculate_dependency_score (score_task_id t all) all dmap : ℚ) : ℝ) ≤ 15 := by
      exact_mod_cast hd
    rw [← h]
    refine round2_le_of_le _ 100 ?_ ⟨10000, by norm_num⟩
    push_cast
    nlinarith

/-- C10: every returned raw sub-score lies in its fixed range — urgency in
`[0, 40]`, importance in `[3, 30]`, effort in `[3, 15]` whenever it is
returned at all, dependency fan-out in `[5, 15]` (never below the baseline
5) — and under the `smart_balance` strategy the total score of a scored
task never exceeds 100. -/
theorem raw_subscore_bounds :
    (∀ due current, 0 ≤ calculate_urgency_score due current ∧
      calculate_urgency_score due current ≤ 40) ∧
    (∀ imp, 3 ≤ calculate_importance_score imp ∧
      calculate_importance_score imp ≤ 30) ∧
    (∀ f v, calculate_effort_score f = .ok v → 3 ≤ v ∧ v ≤ 15) ∧
    (∀ tid all dmap, 5 ≤ calculate_dependency_score tid all dmap ∧
      calculate_dependency_score tid all dmap ≤ 15) ∧
    ∀ now t all dmap r, score_task "smart_balance" now t all dmap = .ok r →
      r.score ≤ 100 :=
  ⟨calculate_urgency_score_bounds, calculate_importance_score_bounds,
   calculate_effort_score_bounds, calculate_dependency_score_bounds,
   score_task_smart_balance_le_100⟩

/-- C10 (witness): the bounds theorem applied at concrete inputs — the
default effort 7.5 is in `[3, 15]`, and a concrete smart-balance scored
task stays at or below 100. -/
theorem raw_subscore_bounds_witness :
    ((3 : ℝ) ≤ 15 / 2 ∧ (15 / 2 : ℝ) ≤ 15) ∧
    ∃ r, score_task "smart_balance" ⟨2025, 11, 29⟩ { id := some "T" }
        [{ id := some "T" }] (build_dependency_map [{ id := some "T" }]) = .ok r ∧
      r.score ≤ 100 := by
  constructor
  · exact raw_subscore_bounds.2.2.1 .missing (15 / 2) rfl
  · obtain ⟨r, hr⟩ : ∃ r, score_task "smart_balance" ⟨2025, 11, 29⟩
        { id := some "T" } [{ id := some "T" }]
        (build_dependency_map [{ id := some "T" }]) = .ok r := ⟨_, rfl⟩
    exact ⟨r, hr, raw_subscore_bounds.2.2.2.2 _ _ _ _ r hr⟩

theorem effort_ok_of_not_nonNumeric (f : NumField) (h : f ≠ .nonNumeric) :
    ∃ v, calculate_effort_score f = .ok v := by
  cases f with
  | missing => exact ⟨_, rfl⟩
  | nonNumeric => exact absurd rfl h
  | num q =>
    simp only [calculate_effort_score]
    split_ifs <;> exact ⟨_, rfl⟩

theorem score_task_ok (strategy : String) (now : Date) (t : Task)
    (all : List Task) (dmap : String → Finset String)
    (h : effort_input t ≠ .nonNumeric) :
    ∃ r, score_task strategy now t all dmap = .ok r := by
  obtain ⟨v, hv⟩ := effort_ok_of_not_nonNumeric _ h
  rw [score_task, hv]
  exact ⟨_, rfl⟩

theorem score_all_ok (strategy : String) (now : Date) (all : List Task)
    (dmap : String → Finset String) :
    ∀ ts : List Task, (∀ t ∈ ts, effort_input t ≠ .nonNumeric) →
      ∃ rs, score_all strategy now all dmap ts = .ok rs ∧
        rs.length = ts.length := by
  intro ts h
  induction ts with
  | nil => exact ⟨[], rfl, rfl⟩
  | cons t ts ih =>
    obtain ⟨r, hr⟩ :=
      score_task_ok strategy now t all dmap (h t (List.mem_cons_self t ts))
    obtain ⟨rs, hrs, hlen⟩ := ih fun t' ht' => h t' (List.mem_cons_of_mem t ht')
    refine ⟨r :: rs, ?_, by simp [hlen]⟩
    rw [score_all, hr, hrs]

theorem fill_from_length (i : ℕ) (ts : List Task) :
    (fill_from i ts).length = ts.length := by
  induction ts generalizing i with
  | nil => rfl
  | cons t ts ih => simp [fill_from, ih]

theorem effort_input_fill_one (i : ℕ) (t : Task) :
    effort_input (fill_one i t) = effort_input t := by
  cases hid : t.id <;> simp [fill_one, hid, effort_input]

theorem effort_input_fill_from (i : ℕ) (ts : List Task)
    (h : ∀ t ∈ ts, effort_input t ≠ .nonNumeric) :
    ∀ t' ∈ fill_from i ts, effort_input t' ≠ .nonNumeric := by
  induction ts generalizing i with
  | nil => intro t' ht'; cases ht'
  | cons t ts ih =>
    intro t' ht'
    rw [fill_from] at ht'
    rcases List.mem_cons.mp ht' with h1 | h1
    · subst h1
      rw [effort_input_fill_one]
      exact h t (List.mem_cons_self t ts)
    · exact ih (i + 1) (fun t'' ht'' => h t'' (List.mem_cons_of_mem t ht'')) t' h1

theorem fill_one_id_isSome (i : ℕ) (t : Task) (h : t.id.isSome) :
    fill_one i t = t := by
  cases hid : t.id with
  | some s => simp [fill_one, hid]
  | none => rw [hid] at h; cases h

theorem fill_from_id_isSome (i : ℕ) (ts : List Task)
    (h : ∀ t ∈ ts, t.id.isSome) : fill_from i ts = ts := by
  induction ts generalizing i with
  | nil => rfl
  | cons t ts ih =>
    rw [fill_from, fill_one_id_isSome i t (h t (List.mem_cons_self t ts)),
      ih (i + 1) fun t' ht' => h t' (List.mem_cons_of_mem t ht')]

theorem fill_one_idem (i : ℕ) (t : Task) :
    fill_one i (fill_one i t) = fill_one i t := by
  cases hid : t.id <;> simp [fill_one, hid]

theorem fill_from_idem (i : ℕ) (ts : List Task) :
    fill_from i (fill_from i ts) = fill_from i ts := by
  induction ts generalizing i with
  | nil => rfl
  | cons t ts ih => simp [fill_from, fill_one_idem, ih (i + 1)]

theorem analyze_tasks_fst (strategy : String) (now : Date) (ts : List Task) :
    (analyze_tasks strategy now ts).1 = fill_missing_ids ts := by
  by_cases h : ts.isEmpty
  · have h0 : ts = [] := by
      cases ts with
      | nil => rfl
      | cons t ts => simp [List.isEmpty] at h
    subst h0
    rfl
  · have hb : ts.isEmpty = false := by
      cases hbb : ts.isEmpty with
      | true => exact absurd hbb h
      | false => rfl
    rw [analyze_tasks, hb]
    cases hsc : score_all strategy now (fill_missing_ids ts)
        (build_dependency_map (fill_missing_ids ts)) (fill_missing_ids ts) with
    | error e => simp [hsc]
    | ok s => simp [hsc]

theorem analyze_tasks_snd_ok (strategy : String) (now : Date) (ts : List Task)
    (h : ∀ t ∈ ts, effort_input t ≠ .nonNumeric) :
    ∃ scored,
      score_all strategy now (fill_missing_ids ts)
          (build_dependency_map (fill_missing_ids ts)) (fill_missing_ids ts) =
        .ok scored ∧
      (analyze_tasks strategy now ts).2 = .ok (sortDesc scored) ∧
      scored.length = ts.length := by
  obtain ⟨scored, hsc, hlen⟩ :=
    score_all_ok strategy now (fill_missing_ids ts)
      (build_dependency_map (fill_missing_ids ts)) (fill_missing_ids ts)
      (effort_input_fill_from 0 ts h)
  have hlen' : scored.length = ts.length := by
    rw [hlen, fill_missing_ids, fill_from_length]
  refine ⟨scored, hsc, ?_, hlen'⟩
  by_cases he : ts.isEmpty
  · have h0 : ts = [] := by
      cases ts with
      | nil => rfl
      | cons a l => simp [List.isEmpty] at he
    subst h0
    have h1 : scored = [] := by
      rw [show fill_missing_ids ([] : List Task) = [] from rfl, score_all] at hsc
      injection hsc with hsc
      exact hsc.symm
    subst h1
    rfl
  · have hb : ts.isEmpty = false := by
      cases hbb : ts.isEmpty with
      | true => exact absurd hbb he
      | false => rfl
    simp [analyze_tasks, hb, hsc]

/-- C3: for every task list (with the effort fields in the numeric-or-absent
domain of the spec's Task record), analyze scores each task exactly once —
the output has one result per input task — and returns the
score-descending, tie-stable reordering of the scored sequence; the empty
list yields the empty list, not an error. -/
theorem analyze_returns_sorted_stable :
    (∀ strategy now, (analyze_tasks strategy now ([] : List Task)).2 = .ok []) ∧
    ∀ strategy now ts, (∀ t ∈ ts, effort_input t ≠ .nonNumeric) →
      AnalyzeOutputSpec strategy now ts := by
  refine ⟨fun _ _ => rfl, fun strategy now ts h => ?_⟩
  obtain ⟨scored, hsc, hsnd, hlen⟩ := analyze_tasks_snd_ok strategy now ts h
  exact ⟨scored, hsc, hsnd, hlen,
    by rw [(sortDesc_perm scored).length_eq, hlen],
    sortDesc_perm scored, sortDesc_pairwise scored,
    fun c => filter_sortDesc c scored⟩

/-- C3 (witness): the analysis contract instantiated on a concrete
two-task list. -/
theorem analyze_returns_sorted_stable_witness :
    AnalyzeOutputSpec "smart_balance" ⟨2025, 11, 29⟩
      [{ id := some "T" }, { id := some "U" }] :=
  analyze_returns_sorted_stable.2 "smart_balance" ⟨2025, 11, 29⟩
    [{ id := some "T" }, { id := some "U" }] (by decide)

/-- C2 (amended): every malformed field within the spec's Task domain
degrades to its neutral default — missing/unparsable due date → urgency 10,
missing or non-numeric importance → 15, missing or non-positive numeric
effort → 7.5 — and analyze completes with one result per task on any list
whose effort fields are numeric or absent; however, a (truthy) non-numeric
effort value is not defaulted: it raises `TypeError` (see the
counterexample). -/
theorem scoring_defaults_on_malformed_fields :
    (∀ current, calculate_urgency_score .missing current = 10 ∧
      calculate_urgency_score .unparsable current = 10) ∧
    (calculate_importance_score .missing = 15 ∧
      calculate_importance_score .nonNumeric = 15) ∧
    (calculate_effort_score .missing = .ok (15/2) ∧
      ∀ q : ℚ, q ≤ 0 → calculate_effort_score (.num q) = .ok (15/2)) ∧
    ∀ strategy now ts, (∀ t ∈ ts, effort_input t ≠ .nonNumeric) →
      ∃ rs, (analyze_tasks strategy now ts).2 = .ok rs ∧
        rs.length = ts.length := by
  refine ⟨fun _ => ⟨rfl, rfl⟩, ⟨rfl, rfl⟩, ⟨rfl, fun q hq => ?_⟩,
    fun strategy now ts h => ?_⟩
  · simp only [calculate_effort_score, if_pos hq]
  · obtain ⟨scored, _, hsnd, hlen⟩ := analyze_tasks_snd_ok strategy now ts h
    exact ⟨sortDesc scored, hsnd,
      by rw [(sortDesc_perm scored).length_eq, hlen]⟩

/-- C2 (counterexample): a task whose `effort` field holds a (truthy)
non-numeric value reaches the comparison `estimated_hours <= 0`, which
raises `TypeError`; the exception escapes `score_task` and aborts
`analyze_tasks` for the whole list. -/
theorem analyze_raises_on_non_numeric_effort :
    (analyze_tasks "smart_balance" ⟨2025, 11, 29⟩
      [{ id := some "E", effort := .nonNumeric }]).2 = .error .typeError ∧
    score_task "smart_balance" ⟨2025, 11, 29⟩
      { id := some "E", effort := .nonNumeric }
      [{ id := some "E", effort := .nonNumeric }]
      (build_dependency_map [{ id := some "E", effort := .nonNumeric }]) =
      .error .typeError :=
  ⟨rfl, rfl⟩

/-- C2 (witness): the defaults theorem applied at a negative effort
estimate and at a concrete task with non-numeric importance and unparsable
due date. -/
theorem scoring_defaults_witness :
    calculate_effort_score (.num (-5)) = .ok (15/2) ∧
    ∃ rs, (analyze_tasks "smart_balance" ⟨2025, 11, 29⟩
      [{ importance := .nonNumeric, due_date := .unparsable }]).2 = .ok rs ∧
      rs.length = 1 :=
  ⟨scoring_defaults_on_malformed_fields.2.2.1.2 (-5) (by norm_num),
   scoring_defaults_on_malformed_fields.2.2.2 "smart_balance" ⟨2025, 11, 29⟩
     [{ importance := .nonNumeric, due_date := .unparsable }] (by decide)⟩

/-- C4 (counterexample): `analyze_tasks` mutates the caller's records — a
task supplied without an `id` field has `id = "task_0"` written into it,
so the input list is not unchanged after the call. -/
theorem analyze_mutates_task_missing_id :
    (analyze_tasks "smart_balance" ⟨2025, 11, 29⟩ [{ title := "t" }]).1 =
      [{ title := "t", id := some "task_0" }] ∧
    ([{ title := "t", id := some "task_0" }] : List Task) ≠
      [{ title := "t" }] := by
  constructor
  · rw [analyze_tasks_fst]; rfl
  · decide

/-- C4 (amended): the only mutation any core operation performs on the
caller's task records is the id assignment of `analyze_tasks` (and hence of
`suggest_top_tasks`): after a call the list is exactly the input with
`"task_<i>"` written into each task that had no id, and a list whose tasks
all carry ids is returned unchanged. -/
theorem core_mutation_only_fills_missing_ids :
    (∀ strategy now ts, (analyze_tasks strategy now ts).1 = fill_missing_ids ts) ∧
    ∀ strategy now ts, (∀ t ∈ ts, t.id.isSome) →
      (analyze_tasks strategy now ts).1 = ts := by
  refine ⟨analyze_tasks_fst, fun strategy now ts h => ?_⟩
  rw [analyze_tasks_fst, fill_missing_ids, fill_from_id_isSome 0 ts h]

/-- C4 (witness): a list whose tasks all have ids comes back unchanged. -/
theorem core_mutation_only_fills_missing_ids_witness :
    (analyze_tasks "smart_balance" ⟨2025, 11, 29⟩ [{ id := some "A" }]).1 =
      [{ id := some "A" }] :=
  core_mutation_only_fills_missing_ids.2 "smart_balance" ⟨2025, 11, 29⟩
    [{ id := some "A" }] (by decide)

/-- C8: the scorer is a pure function of (strategy, reference time, task
list), and its one internal effect — assigning synthetic ids to tasks
missing one — is idempotent: running `analyze_tasks` again on the task list
as left by a first call reproduces the first call's mutated list and its
results (scores and ordering) exactly. -/
theorem analyze_idempotent (strategy : String) (now : Date) (ts : List Task) :
    analyze_tasks strategy now ((analyze_tasks strategy now ts).1) =
      analyze_tasks strategy now ts := by
  rw [analyze_tasks_fst]
  by_cases h : ts.isEmpty
  · have h0 : ts = [] := by
      cases ts with
      | nil => rfl
      | cons a l => simp [List.isEmpty] at h
    subst h0
    rfl
  · have hb : ts.isEmpty = false := by
      cases hbb : ts.isEmpty with
      | true => exact absurd hbb h
      | false => rfl
    have hb' : (fill_missing_ids ts).isEmpty = false := by
      cases ts with
      | nil => simp at hb
      | cons a l => rfl
    have hff : fill_missing_ids (fill_missing_ids ts) = fill_missing_ids ts :=
      fill_from_idem 0 ts
    simp [analyze_tasks, hb, hb', hff]

theorem pySliceTo_length_le (count : ℤ) (h : 0 ≤ count) (l : List ScoredTask) :
    ((pySliceTo count l).length : ℤ) ≤ count := by
  rw [pySliceTo, if_pos h]
  have h1 : (l.take count.toNat).length ≤ count.toNat := by
    rw [List.length_take]; exact min_le_left _ _
  calc ((l.take count.toNat).length : ℤ) ≤ (count.toNat : ℤ) := by
        exact_mod_cast h1
    _ = count := Int.toNat_of_nonneg h

/-- C9: the suggestion endpoint propagates an error to the caller for any
count below 1 (a 400 before any scoring), and for every positive count on a
task list in the spec's Task domain it succeeds with at most `count`
results. -/
theorem suggest_count_validation :
    (∀ strategy now ts (count : ℤ), count < 1 →
      suggest_tasks_view strategy now ts count = .badRequest) ∧
    ∀ strategy now ts (count : ℤ), 1 ≤ count →
      (∀ t ∈ ts, effort_input t ≠ .nonNumeric) →
      ∃ rs, suggest_tasks_view strategy now ts count = .ok rs ∧
        (rs.length : ℤ) ≤ count := by
  constructor
  · intro strategy now ts count hc
    rw [suggest_tasks_view, if_pos hc]
  · intro strategy now ts count hc h
    have hc' : ¬ count < 1 := not_lt.mpr hc
    by_cases he : ts.isEmpty
    · refine ⟨[], ?_, by simp; omega⟩
      rw [suggest_tasks_view, if_neg hc', if_pos he]
    · obtain ⟨scored, hsc, hsnd, hlen⟩ := analyze_tasks_snd_ok strategy now ts h
      have hsugg : (suggest_top_tasks strategy now ts count).2 =
          .ok ((pySliceTo count (sortDesc scored)).map
            fun s => { s with explanation := some (generate_explanation s) }) := by
        rw [suggest_top_tasks]
        dsimp only
        rw [hsnd]
        rfl
      refine ⟨(pySliceTo count (sortDesc scored)).map
        (fun s => { s with explanation := some (generate_explanation s) }), ?_, ?_⟩
      · rw [suggest_tasks_view, if_neg hc', if_neg he, hsugg]
      · rw [List.length_map]
        exact pySliceTo_length_le count (by omega) _

/-- C9 (witness): count 0 is rejected; count 3 on a one-task list succeeds
with at most three suggestions. -/
theorem suggest_count_validation_witness :
    suggest_tasks_view "smart_balance" ⟨2025, 11, 29⟩ [] 0 = .badRequest ∧
    ∃ rs, suggest_tasks_view "smart_balance" ⟨2025, 11, 29⟩
        [{ id := some "T" }] 3 = .ok rs ∧ (rs.length : ℤ) ≤ 3 :=
  ⟨suggest_count_validation.1 "smart_balance" ⟨2025, 11, 29⟩ [] 0 (by decide),
   suggest_count_validation.2 "smart_balance" ⟨2025, 11, 29⟩
     [{ id := some "T" }] 3 (by decide) (by decide)⟩

theorem record_cycle_visited (p : List String) (i : String) (st : DfsState) :
    (record_cycle p i st).visited = st.visited := by
  rw [record_cycle]; split_ifs <;> rfl

theorem dfs_zero (tasks : List Task) (id : String) (path : List String)
    (st : DfsState) : dfs 0 tasks id path st = st := rfl

theorem dfs_in_recStack (tasks : List Task) (fuel : ℕ) (id : String)
    (path : List String) (st : DfsState) (h : id ∈ st.recStack) :
    dfs (fuel + 1) tasks id path st = record_cycle path id st := by
  rw [dfs, if_pos h]

theorem dfs_visited_noop (tasks : List Task) (fuel : ℕ) (id : String)
    (path : List String) (st : DfsState) (h1 : id ∉ st.recStack)
    (h2 : id ∈ st.visited) : dfs (fuel + 1) tasks id path st = st := by
  rw [dfs, if_neg h1, if_pos h2]

theorem dfs_expand (tasks : List Task) (fuel : ℕ) (id : String)
    (path : List String) (st : DfsState) (h1 : id ∉ st.recStack)
    (h2 : id ∉ st.visited) :
    dfs (fuel + 1) tasks id path st = dfs_body tasks fuel id path st := by
  rw [dfs, if_neg h1, if_neg h2]; rfl

theorem foldl_visited_mono (g : DfsState → String → DfsState)
    (hg : ∀ s d, s.visited ⊆ (g s d).visited) :
    ∀ (l : List String) (s : DfsState), s.visited ⊆ (l.foldl g s).visited := by
  intro l
  induction l with
  | nil => intro s; exact subset_rfl
  | cons d ds ih =>
    intro s
    rw [List.foldl_cons]
    exact subset_trans (hg s d) (ih (g s d))

theorem dfs_visited_mono (tasks : List Task) :
    ∀ (fuel : ℕ) (id : String) (path : List String) (st : DfsState),
      st.visited ⊆ (dfs fuel tasks id path st).visited := by
  intro fuel
  induction fuel with
  | zero => intro id path st; exact subset_rfl
  | succ fuel ih =>
    intro id path st
    by_cases h1 : id ∈ st.recStack
    · rw [dfs_in_recStack tasks fuel id path st h1, record_cycle_visited]
    · by_cases h2 : id ∈ st.visited
      · rw [dfs_visited_noop tasks fuel id path st h1 h2]
      · rw [dfs_expand tasks fuel id path st h1 h2, dfs_body]
        cases hm : task_map_get tasks id with
        | none =>
          simp only [hm]
          exact Finset.subset_insert id st.visited
        | some task =>
          simp only [hm]
          have hg : ∀ (s : DfsState) (d : String), s.visited ⊆
              ((fun s dep => if dep ∈ task_ids_set tasks then
                dfs fuel tasks dep (path ++ [id]) s else s) s d).visited := by
            intro s d
            by_cases hd : d ∈ task_ids_set tasks
            · simp only [if_pos hd]; exact ih d (path ++ [id]) s
            · simp only [if_neg hd]; exact subset_rfl
          exact subset_trans (Finset.subset_insert id st.visited)
            (foldl_visited_mono _ hg task.dependencies
              { st with visited := insert id st.visited,
                        recStack := insert id st.recStack })

theorem unvisited_count_le (tasks : List Task) (st st' : DfsState)
    (h : st.visited ⊆ st'.visited) :
    unvisited_count tasks st' ≤ unvisited_count tasks st :=
  Finset.card_le_card (Finset.sdiff_subset_sdiff subset_rfl h)

theorem unvisited_insert (ids v : Finset String) (id : String)
    (hid : id ∈ ids) (hnv : id ∉ v) :
    (ids \ insert id v).card + 1 = (ids \ v).card := by
  have h1 : ids \ insert id v = (ids \ v).erase id := by
    ext x
    simp only [Finset.mem_sdiff, Finset.mem_erase, Finset.mem_insert]
    tauto
  have h2 : id ∈ ids \ v := Finset.mem_sdiff.mpr ⟨hid, hnv⟩
  rw [h1, Finset.card_erase_of_mem h2]
  have h3 : 0 < (ids \ v).card := Finset.card_pos.mpr ⟨id, h2⟩
  omega

theorem foldl_dfs_stable (tasks : List Task) (k D : ℕ) (p : List String)
    (hk : D < k)
    (ih : ∀ d s, d ∈ task_ids_set tasks → unvisited_count tasks s < k →
      dfs (k + 1) tasks d p s = dfs k tasks d p s) :
    ∀ (l : List String) (s : DfsState), unvisited_count tasks s ≤ D →
      l.foldl (fun s dep => if dep ∈ task_ids_set tasks then
          dfs (k + 1) tasks dep p s else s) s =
      l.foldl (fun s dep => if dep ∈ task_ids_set tasks then
          dfs k tasks dep p s else s) s := by
  intro l
  induction l with
  | nil => intro s _; rfl
  | cons d ds ihl =>
    intro s hs
    rw [List.foldl_cons, List.foldl_cons]
    by_cases hd : d ∈ task_ids_set tasks
    · rw [if_pos hd, if_pos hd, ih d s hd (lt_of_le_of_lt hs hk)]
      exact ihl _ (le_trans
        (unvisited_count_le tasks s _ (dfs_visited_mono tasks k d p s)) hs)
    · rw [if_neg hd, if_neg hd]
      exact ihl s hs

theorem dfs_succ_stable (tasks : List Task) :
    ∀ (fuel : ℕ) (id : String) (path : List String) (st : DfsState),
      id ∈ task_ids_set tasks → unvisited_count tasks st < fuel →
      dfs (fuel + 1) tasks id path st = dfs fuel tasks id path st := by
  intro fuel
  induction fuel using Nat.strong_induction_on with
  | _ fuel ih =>
    intro id path st hid hcount
    cases fuel with
    | zero => omega
    | succ k =>
      by_cases h1 : id ∈ st.recStack
      · rw [dfs_in_recStack tasks (k + 1) id path st h1,
          dfs_in_recStack tasks k id path st h1]
      · by_cases h2 : id ∈ st.visited
        · rw [dfs_visited_noop tasks (k + 1) id path st h1 h2,
            dfs_visited_noop tasks k id path st h1 h2]
        · rw [dfs_expand tasks (k + 1) id path st h1 h2,
            dfs_expand tasks k id path st h1 h2, dfs_body, dfs_body]
          have hD : unvisited_count tasks
              { st with visited := insert id st.visited,
                        recStack := insert id st.recStack } + 1 =
              unvisited_count tasks st := by
            exact unvisited_insert (task_ids_set tasks) st.visited id hid h2
          cases hm : task_map_get tasks id with
          | none => simp only [hm]
          | some task =>
            simp only [hm]
            have hfold := foldl_dfs_stable tasks k
              (unvisited_count tasks
                { st with visited := insert id st.visited,
                          recStack := insert id st.recStack })
              (path ++ [id]) (by omega)
              (fun d s hd hs => ih k (by omega) d (path ++ [id]) s hd hs)
              task.dependencies
              { st with visited := insert id st.visited,
                        recStack := insert id st.recStack }
              le_rfl
            rw [hfold]

theorem dfs_stable_add (tasks : List Task) (k fuel : ℕ) (id : String)
    (path : List String) (st : DfsState) (hid : id ∈ task_ids_set tasks)
    (h : unvisited_count tasks st < fuel) :
    dfs (fuel + k) tasks id path st = dfs fuel tasks id path st := by
  induction k with
  | zero => rfl
  | succ k ihk =>
    rw [show fuel + (k + 1) = (fuel + k) + 1 from rfl,
      dfs_succ_stable tasks (fuel + k) id path st hid (by omega), ihk]

theorem dfs_stable (tasks : List Task) (fuel fuel' : ℕ) (id : String)
    (path : List String) (st : DfsState) (hid : id ∈ task_ids_set tasks)
    (h : unvisited_count tasks st < fuel)
    (h' : unvisited_count tasks st < fuel') :
    dfs fuel tasks id path st = dfs fuel' tasks id path st := by
  rcases le_total fuel fuel' with hle | hle
  · obtain ⟨k, rfl⟩ := Nat.le.dest hle
    exact (dfs_stable_add tasks k fuel id path st hid h).symm
  · obtain ⟨k, rfl⟩ := Nat.le.dest hle
    exact dfs_stable_add tasks k fuel' id path st hid h'

theorem mem_dedup_foldl (l : List String) :
    ∀ (acc : List String) (x : String),
      x ∈ l.foldl (fun acc k => if k ∈ acc then acc else acc ++ [k]) acc →
      x ∈ acc ∨ x ∈ l := by
  induction l with
  | nil => intro acc x hx; exact Or.inl hx
  | cons k ks ih =>
    intro acc x hx
    rw [List.foldl_cons] at hx
    rcases ih _ x hx with h1 | h1
    · by_cases hk : k ∈ acc
      · rw [if_pos hk] at h1
        exact Or.inl h1
      · rw [if_neg hk] at h1
        rcases List.mem_append.mp h1 with h2 | h2
        · exact Or.inl h2
        · exact Or.inr (by simp at h2; simp [h2])
    · exact Or.inr (List.mem_cons_of_mem k h1)

theorem task_map_keys_subset (tasks : List Task) :
    ∀ k ∈ task_map_keys tasks, k ∈ task_ids_set tasks := by
  intro k hk
  rcases mem_dedup_foldl (task_ids tasks) [] k hk with h | h
  · cases h
  · exact List.mem_toFinset.mpr h

theorem detect_loop_stable (tasks : List Task) (fuel fuel' : ℕ)
    (hf : (task_ids_set tasks).card < fuel)
    (hf' : (task_ids_set tasks).card < fuel') :
    ∀ (keys : List String), (∀ k ∈ keys, k ∈ task_ids_set tasks) →
      ∀ st : DfsState,
      keys.foldl (fun st id => if id ∈ st.visited then st
        else dfs fuel tasks id [] st) st =
      keys.foldl (fun st id => if id ∈ st.visited then st
        else dfs fuel' tasks id [] st) st := by
  intro keys hkeys
  induction keys with
  | nil => intro st; rfl
  | cons k ks ihk =>
    intro st
    rw [List.foldl_cons, List.foldl_cons]
    have hk := hkeys k (List.mem_cons_self k ks)
    have htail := fun k' hk' => hkeys k' (List.mem_cons_of_mem k hk')
    by_cases hv : k ∈ st.visited
    · rw [if_pos hv, if_pos hv]
      exact ihk htail st
    · rw [if_neg hv, if_neg hv]
      have hcount : unvisited_count tasks st ≤ (task_ids_set tasks).card :=
        Finset.card_le_card Finset.sdiff_subset
      rw [dfs_stable tasks fuel fuel' k [] st hk
        (lt_of_le_of_lt hcount hf) (lt_of_le_of_lt hcount hf')]
      exact ihk htail _

theorem detect_fuel_stable (tasks : List Task) (fuel : ℕ)
    (h : (task_ids_set tasks).card + 1 ≤ fuel) :
    detect_fuel fuel tasks = detect_circular_dependencies tasks := by
  rw [detect_circular_dependencies, detect_fuel, detect_fuel]
  exact congrArg DfsState.cycles
    (detect_loop_stable tasks fuel ((task_ids_set tasks).card + 1)
      (by omega) (by omega) (task_map_keys tasks)
      (task_map_keys_subset tasks) ⟨∅, ∅, []⟩)

/-- C6: the depth-first search terminates on every finite task list —
formally, the fuel-indexed model of the unbounded Python recursion is
fuel-independent once the fuel exceeds the number of distinct task keys
(one unit of fuel is spent exactly when a new node is marked visited, so
`card + 1` always suffices), including lists with self-dependencies,
repeated edges and fully cyclic graphs; and a node already fully explored
(visited and off the recursion stack) is never re-traversed: `dfs` on it
returns the state unchanged. -/
theorem detect_cycles_terminates :
    (∀ tasks fuel, (task_ids_set tasks).card + 1 ≤ fuel →
      detect_fuel fuel tasks = detect_circular_dependencies tasks) ∧
    ∀ tasks fuel id path (st : DfsState), id ∉ st.recStack → id ∈ st.visited →
      dfs fuel tasks id path st = st := by
  refine ⟨detect_fuel_stable, fun tasks fuel id path st h1 h2 => ?_⟩
  cases fuel with
  | zero => rfl
  | succ fuel => exact dfs_visited_noop tasks fuel id path st h1 h2

/-- C6 (witness): on a concrete self-loop graph, any fuel at or above the
bound gives the same cycles; and `dfs` on an already-visited node is a
no-op. -/
theorem detect_cycles_terminates_witness :
    detect_fuel 4 [{ id := some "A", dependencies := ["A"] }] =
      detect_circular_dependencies [{ id := some "A", dependencies := ["A"] }] ∧
    dfs 5 [] "X" [] ⟨{"X"}, ∅, []⟩ = ⟨{"X"}, ∅, []⟩ :=
  ⟨detect_cycles_terminates.1 [{ id := some "A", dependencies := ["A"] }] 4
      (by decide),
   detect_cycles_terminates.2 [] 5 "X" [] ⟨{"X"}, ∅, []⟩ (by decide) (by decide)⟩

end Scoring
